import Mathlib

/-
Verification of the arithmetic-logic and register core of the
gbc-rust-emulator repository (src/src/cpu/cpu.rs and
src/src/cpu/registers.rs), embedded shallowly in Lean 4.

Machine integers are modelled as Nat: a Rust u8 is a Nat that the
well-formedness predicate WF bounds by 256, a u16 a Nat bounded by 65536.
Rust wrapping operations (overflowing_add, overflowing_sub, as-casts)
are modelled with explicit % 256 / % 65536; the unchecked Rust operators
+ and - on u8, which abort on overflow/underflow in debug builds, are
modelled as Option-valued checked operations, with none standing for the
abort. Bitwise operators are kept literally (&&&, |||, <<<, >>>).
-/

namespace GBC

/-- FlagRegister is the four-boolean flag struct from cpu/flag_register.rs
(the struct fields are visible through the uses in cpu.rs and registers.rs). -/
structure FlagRegister where
  zero : Bool
  subtract : Bool
  half_carry : Bool
  carry : Bool
deriving DecidableEq, Repr

/-- Registers mirrors the struct in registers.rs: seven 8-bit registers
and the flag register. -/
structure Registers where
  a : Nat
  b : Nat
  c : Nat
  d : Nat
  e : Nat
  f : FlagRegister
  h : Nat
  l : Nat
deriving DecidableEq, Repr

/-- AritmeticTarget mirrors the operand-selector enum from cpu/opcodes.rs
(its seven variants are visible through the exhaustive matches in cpu.rs). -/
inductive AritmeticTarget where
  | A | B | C | D | E | H | L
deriving DecidableEq, Repr

/-- Instruction mirrors the opcode enum from cpu/opcodes.rs. The eleven
handled families are visible through the match arms in cpu.rs.
Modelled from the spec: opcodes.rs is not under src/; the wildcard arm in
CPU::execute and the spec (section 3: the families listed end with an
ellipsis) show the enum has further variants beyond the eleven handled
ones; OTHER stands for any such extra family, carrying the
AritmeticTarget payload the spec says every variant carries. -/
inductive Instruction where
  | ADD (t : AritmeticTarget)
  | ADC (t : AritmeticTarget)
  | SUB (t : AritmeticTarget)
  | SBC (t : AritmeticTarget)
  | XOR (t : AritmeticTarget)
  | AND (t : AritmeticTarget)
  | OR (t : AritmeticTarget)
  | CP (t : AritmeticTarget)
  | INC (t : AritmeticTarget)
  | DEC (t : AritmeticTarget)
  | SWAP (t : AritmeticTarget)
  | OTHER (t : AritmeticTarget)
deriving DecidableEq, Repr

/-- WF states that every 8-bit register holds a byte value. -/
def WF (cpu : Registers) : Prop :=
  cpu.a < 256 ∧ cpu.b < 256 ∧ cpu.c < 256 ∧ cpu.d < 256 ∧
  cpu.e < 256 ∧ cpu.h < 256 ∧ cpu.l < 256

instance (cpu : Registers) : Decidable (WF cpu) := by
  unfold WF; infer_instance

/-- u8::overflowing_add on byte values: the wrapped sum and the overflow bit. -/
def overflowing_add (x y : Nat) : Nat × Bool :=
  ((x + y) % 256, decide (x + y > 255))

/-- u8::overflowing_sub on byte values: the wrapped difference and the borrow bit. -/
def overflowing_sub (x y : Nat) : Nat × Bool :=
  ((x + 256 - y) % 256, decide (x < y))

/-- u8_checked_add models the unchecked Rust + on u8, which aborts on
overflow in debug builds: none is the abort. -/
def u8_checked_add (x y : Nat) : Option Nat :=
  if x + y ≤ 255 then some (x + y) else none

/-- u8_checked_sub models the unchecked Rust - on u8, which aborts on
underflow in debug builds: none is the abort. -/
def u8_checked_sub (x y : Nat) : Option Nat :=
  if y ≤ x then some (x - y) else none

/-- register_from_target mirrors CPU::register_from_target in cpu.rs. -/
def register_from_target (cpu : Registers) (target : AritmeticTarget) : Nat :=
  match target with
  | .A => cpu.a
  | .B => cpu.b
  | .C => cpu.c
  | .D => cpu.d
  | .E => cpu.e
  | .H => cpu.h
  | .L => cpu.l

/-- write_target mirrors the assignment through
CPU::register_ref_from_target in cpu.rs: it overwrites the selected
register with the given value. -/
def write_target (cpu : Registers) (target : AritmeticTarget) (v : Nat) : Registers :=
  match target with
  | .A => { cpu with a := v }
  | .B => { cpu with b := v }
  | .C => { cpu with c := v }
  | .D => { cpu with d := v }
  | .E => { cpu with e := v }
  | .H => { cpu with h := v }
  | .L => { cpu with l := v }

/-- add mirrors CPU::add in cpu.rs. -/
def add (cpu : Registers) (target : AritmeticTarget) : Nat × FlagRegister :=
  let value := register_from_target cpu target
  let p := overflowing_add cpu.a value
  (p.1,
    { zero := decide (p.1 = 0)
      subtract := false
      half_carry := decide ((cpu.a &&& 0xF) + (value &&& 0xF) > 0xF)
      carry := p.2 })

/-- add_with_carry mirrors CPU::add_with_carry in cpu.rs: the sum is
accumulated in a u16 and truncated to u8. -/
def add_with_carry (cpu : Registers) (target : AritmeticTarget) : Nat × FlagRegister :=
  let value := register_from_target cpu target
  let big_value := (cpu.a + value + (cond cpu.f.carry 1 0)) % 65536
  let new_value := big_value % 256
  (new_value,
    { zero := decide (new_value = 0)
      subtract := false
      half_carry := decide ((cpu.a &&& 0xF) + (value &&& 0xF) > 0xF)
      carry := decide (big_value > 0xFF) })

/-- subtract mirrors CPU::subtract in cpu.rs; the half-carry test is
done in i32 arithmetic, modelled with Int. -/
def subtract (cpu : Registers) (target : AritmeticTarget) : Nat × FlagRegister :=
  let value := register_from_target cpu target
  let p := overflowing_sub cpu.a value
  (p.1,
    { zero := decide (p.1 = 0)
      subtract := true
      half_carry := decide (((cpu.a &&& 0xF : Nat) : Int) - ((value &&& 0xF : Nat) : Int) < 0)
      carry := p.2 })

/-- subtract_with_carry mirrors CPU::subtract_with_carry in cpu.rs.
The inner value - carry uses the unchecked Rust - on u8, so it is
Option-valued: none is the debug-build abort when value = 0 and the
incoming carry flag is set. -/
def subtract_with_carry (cpu : Registers) (target : AritmeticTarget) :
    Option (Nat × FlagRegister) :=
  let value := register_from_target cpu target
  match u8_checked_sub value (cond cpu.f.carry 1 0) with
  | none => none
  | some inner =>
    let p := overflowing_sub cpu.a inner
    some (p.1,
      { zero := decide (p.1 = 0)
        subtract := true
        half_carry := decide (((cpu.a &&& 0xF : Nat) : Int) - ((value &&& 0xF : Nat) : Int) < 0)
        carry := p.2 })

/-- xor mirrors CPU::xor in cpu.rs. -/
def xor (cpu : Registers) (target : AritmeticTarget) : Nat × FlagRegister :=
  let value := register_from_target cpu target
  let new_value := cpu.a ^^^ value
  (new_value,
    { zero := decide (new_value = 0)
      subtract := false
      half_carry := false
      carry := false })

/-- and mirrors CPU::and in cpu.rs. -/
def and (cpu : Registers) (target : AritmeticTarget) : Nat × FlagRegister :=
  let value := register_from_target cpu target
  let new_value := cpu.a &&& value
  (new_value,
    { zero := decide (new_value = 0)
      subtract := false
      half_carry := true
      carry := false })

/-- or mirrors CPU::or in cpu.rs. -/
def or (cpu : Registers) (target : AritmeticTarget) : Nat × FlagRegister :=
  let value := register_from_target cpu target
  let new_value := cpu.a ||| value
  (new_value,
    { zero := decide (new_value = 0)
      subtract := false
      half_carry := false
      carry := false })

/-- increment mirrors CPU::increment in cpu.rs. The target value + 1
uses the unchecked Rust + on u8, so it is Option-valued: none is the
debug-build abort when the target register holds 0xFF. -/
def increment (cpu : Registers) (target : AritmeticTarget) :
    Option (Nat × FlagRegister) :=
  match u8_checked_add (register_from_target cpu target) 1 with
  | none => none
  | some new_value =>
    some (new_value,
      { zero := decide (new_value = 0)
        subtract := false
        half_carry := decide ((cpu.a &&& 0xF) + 1 > 0xF)
        carry := cpu.f.carry })

/-- decrement mirrors CPU::decrement in cpu.rs. The target value - 1
uses the unchecked Rust - on u8, so it is Option-valued: none is the
debug-build abort when the target register holds 0x00. -/
def decrement (cpu : Registers) (target : AritmeticTarget) :
    Option (Nat × FlagRegister) :=
  match u8_checked_sub (register_from_target cpu target) 1 with
  | none => none
  | some new_value =>
    some (new_value,
      { zero := decide (new_value = 0)
        subtract := true
        half_carry := decide (((cpu.a &&& 0xF : Nat) : Int) - 1 < 0)
        carry := cpu.f.carry })

/-- swap mirrors CPU::swap in cpu.rs, including the early return for the
zero value. -/
def swap (cpu : Registers) (target : AritmeticTarget) : Nat × FlagRegister :=
  let value := register_from_target cpu target
  if value = 0 then
    (0, { zero := false, subtract := false, half_carry := false, carry := false })
  else
    let down_nibble := value &&& 0x0F
    let upper_nibble := value &&& 0xF0
    let new_down_nibble := upper_nibble >>> 4
    let new_upper_nibble := down_nibble <<< 4
    let new_value := new_upper_nibble ||| new_down_nibble
    (new_value,
      { zero := false, subtract := false, half_carry := false, carry := false })

/-- execute mirrors CPU::execute in cpu.rs. It is Option-valued: none
models an abort, either from the unimplemented-opcode wildcard arm or
from unchecked u8 arithmetic inside INC, DEC and SBC. -/
def execute (cpu : Registers) (instruction : Instruction) : Option Registers :=
  match instruction with
  | .ADD target =>
    let r := add cpu target
    some { cpu with a := r.1, f := r.2 }
  | .ADC target =>
    let r := add_with_carry cpu target
    some { cpu with a := r.1, f := r.2 }
  | .SUB target =>
    let r := subtract cpu target
    some { cpu with a := r.1, f := r.2 }
  | .SBC target =>
    match subtract_with_carry cpu target with
    | none => none
    | some r => some { cpu with a := r.1, f := r.2 }
  | .XOR target =>
    let r := xor cpu target
    some { cpu with a := r.1, f := r.2 }
  | .AND target =>
    let r := and cpu target
    some { cpu with a := r.1, f := r.2 }
  | .OR target =>
    let r := or cpu target
    some { cpu with a := r.1, f := r.2 }
  | .CP target =>
    let r := subtract cpu target
    some { cpu with f := r.2 }
  | .INC target =>
    match increment cpu target with
    | none => none
    | some r => some { write_target cpu target r.1 with f := r.2 }
  | .DEC target =>
    match decrement cpu target with
    | none => none
    | some r => some { write_target cpu target r.1 with f := r.2 }
  | .SWAP target =>
    let r := swap cpu target
    some { write_target cpu target r.1 with f := r.2 }
  | .OTHER _ => none

/-- unfold mirrors the free function unfold in registers.rs. -/
def unfold (value : Nat) : Nat × Nat :=
  ((value &&& 0xFF00) >>> 8, value &&& 0x00FF)

/-- fold mirrors the free function fold in registers.rs. -/
def fold (left right : Nat) : Nat :=
  (left <<< 8) ||| right

/-- flag_to_byte is u8::from(FlagRegister). Modelled from the spec:
cpu/flag_register.rs is not under src/; per the spec (section 3) the
four flags occupy the low nibble of the byte, bits 4 to 7 unused and
fixed to zero. The bit order inside the nibble is not fixed by the
spec; zero, subtract, half_carry, carry are placed at bits 3, 2, 1, 0. -/
def flag_to_byte (f : FlagRegister) : Nat :=
  (cond f.zero 8 0) + (cond f.subtract 4 0) + (cond f.half_carry 2 0) + (cond f.carry 1 0)

/-- flag_from_byte is FlagRegister::from(u8). Modelled from the spec:
cpu/flag_register.rs is not under src/; it reads the four flags from the
low nibble, inverse of flag_to_byte. -/
def flag_from_byte (b : Nat) : FlagRegister :=
  { zero := decide (b &&& 8 ≠ 0)
    subtract := decide (b &&& 4 ≠ 0)
    half_carry := decide (b &&& 2 ≠ 0)
    carry := decide (b &&& 1 ≠ 0) }

/-- get_af mirrors Registers::get_af in registers.rs, using the
spec-modelled flag conversion. -/
def get_af (cpu : Registers) : Nat :=
  fold cpu.a (flag_to_byte cpu.f)

/-- set_af mirrors Registers::set_af in registers.rs, using the
spec-modelled flag conversion. -/
def set_af (cpu : Registers) (value : Nat) : Registers :=
  let p := GBC.unfold value
  { cpu with a := p.1, f := flag_from_byte p.2 }

/-- AFRepresentable states that a 16-bit value is representable as an AF
pair: its high byte is any byte and its low byte is the byte image of
some flag combination. -/
def AFRepresentable (x : Nat) : Prop :=
  ∃ hi fl, hi < 256 ∧ x = fold hi (flag_to_byte fl)

/- Arithmetic characterizations of the bitwise operations used by the
source, for byte-bounded values. -/

theorem and_mask_15 (x : Nat) : x &&& 0xF = x % 16 := by
  have h := Nat.and_pow_two_sub_one_eq_mod x 4
  norm_num at h
  exact h

theorem and_mask_255 (x : Nat) : x &&& 0xFF = x % 256 := by
  have h := Nat.and_pow_two_sub_one_eq_mod x 8
  norm_num at h
  exact h

theorem lor_shift_add (k hi lo : Nat) (h : lo < 2 ^ k) :
    hi <<< k ||| lo = hi * 2 ^ k + lo := by
  have h2 := Nat.mul_add_lt_is_or h hi
  rw [Nat.shiftLeft_eq, Nat.mul_comm hi (2 ^ k), ← h2]

theorem and_high_mask_shift (k x : Nat) :
    (x &&& 2 ^ k * (2 ^ k - 1)) >>> k = x / 2 ^ k % 2 ^ k := by
  apply Nat.eq_of_testBit_eq
  intro i
  rw [Nat.testBit_shiftRight, Nat.testBit_and,
    show 2 ^ k * (2 ^ k - 1) = 2 ^ k * (2 ^ k - 1) + 0 by omega,
    Nat.testBit_mul_pow_two_add (2 ^ k - 1) (by positivity) (k + i),
    if_neg (by omega : ¬ (k + i < k)), Nat.add_sub_cancel_left,
    Nat.testBit_two_pow_sub_one,
    ← Nat.shiftRight_eq_div_pow, Nat.testBit_mod_two_pow, Nat.testBit_shiftRight]
  exact Bool.and_comm _ _

theorem high_mask_shift_8 (x : Nat) : (x &&& 0xFF00) >>> 8 = x / 256 % 256 := by
  have h := and_high_mask_shift 8 x
  norm_num at h
  exact h

theorem high_mask_shift_4 (x : Nat) : (x &&& 0xF0) >>> 4 = x / 16 % 16 := by
  have h := and_high_mask_shift 4 x
  norm_num at h
  exact h

theorem lor_byte (hi lo : Nat) (h : lo < 256) : hi <<< 8 ||| lo = hi * 256 + lo := by
  have h2 := lor_shift_add 8 hi lo (by omega)
  norm_num at h2
  exact h2

theorem lor_nibble (hi lo : Nat) (h : lo < 16) : hi <<< 4 ||| lo = hi * 16 + lo := by
  have h2 := lor_shift_add 4 hi lo (by omega)
  norm_num at h2
  exact h2

/- Shared facts about fold, unfold and the flag conversions. -/

theorem unfold_fold_aux (hi lo : Nat) (hhi : hi < 256) (hlo : lo < 256) :
    GBC.unfold (fold hi lo) = (hi, lo) := by
  simp only [GBC.unfold, fold, lor_byte hi lo hlo, high_mask_shift_8, and_mask_255]
  rw [Prod.mk.injEq]
  constructor
  · omega
  · omega

theorem fold_unfold_aux (x : Nat) (hx : x < 65536) :
    fold (GBC.unfold x).1 (GBC.unfold x).2 = x := by
  simp only [GBC.unfold, fold, high_mask_shift_8, and_mask_255]
  rw [lor_byte _ _ (by omega)]
  omega

theorem flag_round_aux (fl : FlagRegister) :
    flag_from_byte (flag_to_byte fl) = fl := by
  rcases fl with ⟨z, s, hc, c⟩
  cases z <;> cases s <;> cases hc <;> cases c <;> decide

theorem flag_to_byte_lt (fl : FlagRegister) : flag_to_byte fl < 16 := by
  rcases fl with ⟨z, s, hc, c⟩
  cases z <;> cases s <;> cases hc <;> cases c <;> decide

theorem register_from_target_lt (cpu : Registers) (t : AritmeticTarget)
    (hwf : WF cpu) : register_from_target cpu t < 256 := by
  obtain ⟨h1, h2, h3, h4, h5, h6, h7⟩ := hwf
  cases t <;> (simp only [register_from_target]; assumption)

/-- cpu0 is a concrete well-formed register file used by witness theorems. -/
def cpu0 : Registers :=
  { a := 10, b := 1, c := 2, d := 3, e := 4,
    f := { zero := false, subtract := false, half_carry := false, carry := false },
    h := 5, l := 6 }

/-- C8: for all byte pairs (hi, lo), unfold (fold hi lo) = (hi, lo), and for
every 16-bit value x, fold (unfold x) = x, where fold concatenates two bytes
big-endian (high byte first) and unfold splits a 16-bit value into its two
constituent bytes. -/
theorem fold_unfold_round_trip (hi lo x : Nat)
    (hhi : hi < 256) (hlo : lo < 256) (hx : x < 65536) :
    GBC.unfold (fold hi lo) = (hi, lo) ∧
    fold (GBC.unfold x).1 (GBC.unfold x).2 = x :=
  ⟨unfold_fold_aux hi lo hhi hlo, fold_unfold_aux x hx⟩

/-- C8 witness: the round trips at hi = 2, lo = 1, x = 513, the values of the
repository test. -/
theorem fold_unfold_round_trip_witness :
    GBC.unfold (fold 2 1) = (2, 1) ∧
    fold (GBC.unfold 513).1 (GBC.unfold 513).2 = 513 :=
  fold_unfold_round_trip 2 1 513 (by decide) (by decide) (by decide)

/-- C1: for every register-file state and selected target, executing ADD
writes to A the 8-bit wrapping sum of A and the operand, with zero = (result
= 0), subtract = false, half_carry = (low nibbles sum past 0xF) and carry =
unsigned overflow; executing ADC writes the low 8 bits of the 16-bit sum
A + value + carry_in, with the same zero and subtract, a half-carry test
that does not include carry_in, and carry = (16-bit sum > 0xFF). -/
theorem add_adc_correct (cpu : Registers) (t : AritmeticTarget) (hwf : WF cpu) :
    execute cpu (.ADD t) = some { cpu with
      a := (cpu.a + register_from_target cpu t) % 256,
      f := { zero := decide ((cpu.a + register_from_target cpu t) % 256 = 0),
             subtract := false,
             half_carry := decide (cpu.a % 16 + register_from_target cpu t % 16 > 0xF),
             carry := decide (cpu.a + register_from_target cpu t > 0xFF) } } ∧
    execute cpu (.ADC t) = some { cpu with
      a := (cpu.a + register_from_target cpu t + cond cpu.f.carry 1 0) % 256,
      f := { zero := decide ((cpu.a + register_from_target cpu t + cond cpu.f.carry 1 0) % 256 = 0),
             subtract := false,
             half_carry := decide (cpu.a % 16 + register_from_target cpu t % 16 > 0xF),
             carry := decide (cpu.a + register_from_target cpu t + cond cpu.f.carry 1 0 > 0xFF) } } := by
  have hv := register_from_target_lt cpu t hwf
  have ha : cpu.a < 256 := hwf.1
  have hm : cpu.a + register_from_target cpu t + cond cpu.f.carry 1 0 < 65536 := by
    cases cpu.f.carry <;> simp only [cond] <;> omega
  constructor
  · simp [execute, add, overflowing_add, and_mask_15]
  · simp [execute, add_with_carry, and_mask_15, Nat.mod_eq_of_lt hm]

/-- C1 witness: ADD and ADC on the concrete state cpu0 with target B. -/
theorem add_adc_correct_witness :
    execute cpu0 (.ADD .B) = some { cpu0 with
      a := (cpu0.a + register_from_target cpu0 .B) % 256,
      f := { zero := decide ((cpu0.a + register_from_target cpu0 .B) % 256 = 0),
             subtract := false,
             half_carry := decide (cpu0.a % 16 + register_from_target cpu0 .B % 16 > 0xF),
             carry := decide (cpu0.a + register_from_target cpu0 .B > 0xFF) } } ∧
    execute cpu0 (.ADC .B) = some { cpu0 with
      a := (cpu0.a + register_from_target cpu0 .B + cond cpu0.f.carry 1 0) % 256,
      f := { zero := decide ((cpu0.a + register_from_target cpu0 .B + cond cpu0.f.carry 1 0) % 256 = 0),
             subtract := false,
             half_carry := decide (cpu0.a % 16 + register_from_target cpu0 .B % 16 > 0xF),
             carry := decide (cpu0.a + register_from_target cpu0 .B + cond cpu0.f.carry 1 0 > 0xFF) } } :=
  add_adc_correct cpu0 .B (by decide)

/-- C5: executing CP leaves register A equal to its pre-call value, leaves
every register other than F unchanged, and writes exactly the flags that
executing SUB on the same state and target would have produced. -/
theorem cp_preserves_a_flags_as_sub (cpu : Registers) (t : AritmeticTarget) :
    ∃ cpu', execute cpu (.CP t) = some cpu' ∧
      cpu'.a = cpu.a ∧ cpu'.b = cpu.b ∧ cpu'.c = cpu.c ∧ cpu'.d = cpu.d ∧
      cpu'.e = cpu.e ∧ cpu'.h = cpu.h ∧ cpu'.l = cpu.l ∧
      ∃ cpuS, execute cpu (.SUB t) = some cpuS ∧ cpu'.f = cpuS.f :=
  ⟨_, rfl, rfl, rfl, rfl, rfl, rfl, rfl, rfl, _, rfl, rfl⟩

/-- C7: invoking execute on an instruction variant outside the implemented
families aborts immediately (none models the unimplemented-opcode abort)
rather than returning a register file. -/
theorem unimplemented_aborts (cpu : Registers) (t : AritmeticTarget) :
    execute cpu (.OTHER t) = none := rfl

/-- C6: executing SWAP writes to the target register the byte with the two
nibbles of its value exchanged (low nibble moved to bits 4 to 7, high nibble
to bits 0 to 3) and sets all four flags to false, in particular zero = false
even when the result is 0. -/
theorem swap_correct (cpu : Registers) (t : AritmeticTarget) (hwf : WF cpu) :
    execute cpu (.SWAP t) = some { write_target cpu t
        (register_from_target cpu t % 16 * 16 + register_from_target cpu t / 16) with
      f := { zero := false, subtract := false, half_carry := false, carry := false } } := by
  have hv := register_from_target_lt cpu t hwf
  have hval : (register_from_target cpu t &&& 0xF) <<< 4 |||
      (register_from_target cpu t &&& 0xF0) >>> 4
      = register_from_target cpu t % 16 * 16 + register_from_target cpu t / 16 := by
    rw [and_mask_15, high_mask_shift_4, lor_nibble _ _ (by omega)]
    omega
  by_cases h0 : register_from_target cpu t = 0
  · simp [execute, swap, h0]
  · simp [execute, swap, h0, hval]

/-- C6 witness: SWAP on the concrete state cpu0 with target E. -/
theorem swap_correct_witness :
    execute cpu0 (.SWAP .E) = some { write_target cpu0 .E
        (register_from_target cpu0 .E % 16 * 16 + register_from_target cpu0 .E / 16) with
      f := { zero := false, subtract := false, half_carry := false, carry := false } } :=
  swap_correct cpu0 .E (by decide)

/-- C4: whenever INC or DEC completes (target value below 0xFF for INC, above
0x00 for DEC), executing it leaves the carry flag bit-for-bit identical to its
pre-operation value and computes half_carry from the pre-operation low nibble
of register A regardless of which register is the target, with zero = (result
= 0) and subtract = false for INC, true for DEC. -/
theorem inc_dec_flags_correct (cpu : Registers) (t : AritmeticTarget) :
    (register_from_target cpu t < 0xFF →
      ∃ cpu', execute cpu (.INC t) = some cpu' ∧
        cpu'.f.carry = cpu.f.carry ∧
        cpu'.f.half_carry = decide (cpu.a % 16 + 1 > 0xF) ∧
        cpu'.f.subtract = false ∧
        cpu'.f.zero = decide (register_from_target cpu t + 1 = 0)) ∧
    (0 < register_from_target cpu t →
      ∃ cpu', execute cpu (.DEC t) = some cpu' ∧
        cpu'.f.carry = cpu.f.carry ∧
        cpu'.f.half_carry = decide (((cpu.a % 16 : Nat) : Int) - 1 < 0) ∧
        cpu'.f.subtract = true ∧
        cpu'.f.zero = decide (register_from_target cpu t - 1 = 0)) := by
  constructor
  · intro h
    have hs : increment cpu t = some (register_from_target cpu t + 1,
        { zero := decide (register_from_target cpu t + 1 = 0),
          subtract := false,
          half_carry := decide ((cpu.a &&& 0xF) + 1 > 0xF),
          carry := cpu.f.carry }) := by
      unfold increment
      rw [u8_checked_add, if_pos (by omega : register_from_target cpu t + 1 ≤ 255)]
    have he : execute cpu (.INC t) = some
        { write_target cpu t (register_from_target cpu t + 1) with
          f := { zero := decide (register_from_target cpu t + 1 = 0),
                 subtract := false,
                 half_carry := decide ((cpu.a &&& 0xF) + 1 > 0xF),
                 carry := cpu.f.carry } } := by
      simp only [execute, hs]
    exact ⟨_, he, rfl, by simp [and_mask_15], rfl, rfl⟩
  · intro h
    have hs : decrement cpu t = some (register_from_target cpu t - 1,
        { zero := decide (register_from_target cpu t - 1 = 0),
          subtract := true,
          half_carry := decide (((cpu.a &&& 0xF : Nat) : Int) - 1 < 0),
          carry := cpu.f.carry }) := by
      unfold decrement
      rw [u8_checked_sub, if_pos (by omega : 1 ≤ register_from_target cpu t)]
    have he : execute cpu (.DEC t) = some
        { write_target cpu t (register_from_target cpu t - 1) with
          f := { zero := decide (register_from_target cpu t - 1 = 0),
                 subtract := true,
                 half_carry := decide (((cpu.a &&& 0xF : Nat) : Int) - 1 < 0),
                 carry := cpu.f.carry } } := by
      simp only [execute, hs]
    exact ⟨_, he, rfl, by simp [and_mask_15], rfl, rfl⟩

/-- C4 witness: INC and DEC on the concrete state cpu0 with target C, whose
value 2 is strictly between the boundaries. -/
theorem inc_dec_flags_correct_witness :
    (∃ cpu', execute cpu0 (.INC .C) = some cpu' ∧
      cpu'.f.carry = cpu0.f.carry ∧
      cpu'.f.half_carry = decide (cpu0.a % 16 + 1 > 0xF) ∧
      cpu'.f.subtract = false ∧
      cpu'.f.zero = decide (register_from_target cpu0 .C + 1 = 0)) ∧
    (∃ cpu', execute cpu0 (.DEC .C) = some cpu' ∧
      cpu'.f.carry = cpu0.f.carry ∧
      cpu'.f.half_carry = decide (((cpu0.a % 16 : Nat) : Int) - 1 < 0) ∧
      cpu'.f.subtract = true ∧
      cpu'.f.zero = decide (register_from_target cpu0 .C - 1 = 0)) :=
  ⟨(inc_dec_flags_correct cpu0 .C).1 (by decide),
   (inc_dec_flags_correct cpu0 .C).2 (by decide)⟩

/-- C2: evaluation of the code at the wrap boundaries: with the target
register at 0xFF, INC aborts (unchecked u8 addition overflow in the Rust
debug build) instead of wrapping to 0x00, and with the target register at
0x00, DEC aborts instead of wrapping to 0xFF. -/
theorem inc_dec_boundary_aborts :
    execute { cpu0 with b := 0xFF } (.INC .B) = none ∧
    execute { cpu0 with b := 0x00 } (.DEC .B) = none :=
  ⟨rfl, rfl⟩

/-- C3: evaluation of the code at operand value 0 with the incoming carry
flag set: SBC aborts (unchecked u8 subtraction underflow in value - carry_in
in the Rust debug build) instead of completing a wrapping subtraction. -/
theorem sbc_zero_operand_carry_aborts :
    execute { cpu0 with
                b := 0,
                f := { zero := false, subtract := false,
                       half_carry := false, carry := true } }
      (.SBC .B) = none :=
  rfl

theorem register_from_target_f_irrel (cpu : Registers) (fl : FlagRegister)
    (r : AritmeticTarget) :
    register_from_target { cpu with f := fl } r = register_from_target cpu r := by
  cases r <;> rfl

theorem register_from_target_write_ne (cpu : Registers) (t r : AritmeticTarget)
    (v : Nat) (h : r ≠ t) :
    register_from_target (write_target cpu t v) r = register_from_target cpu r := by
  cases t <;> cases r <;> simp_all [write_target, register_from_target]

/-- C10: whenever execute returns a register file, the eight accumulator
operations leave B, C, D, E, H and L unchanged (only A and the flag register
may change), and INC, DEC and SWAP leave every register other than the
selected target unchanged (only the target and the flag register may
change). -/
theorem execute_frame_effects (cpu cpu' : Registers) (i : Instruction)
    (hx : execute cpu i = some cpu') :
    (match i with
     | .ADD _ | .ADC _ | .SUB _ | .SBC _ | .XOR _ | .AND _ | .OR _ | .CP _ =>
        cpu'.b = cpu.b ∧ cpu'.c = cpu.c ∧ cpu'.d = cpu.d ∧ cpu'.e = cpu.e ∧
        cpu'.h = cpu.h ∧ cpu'.l = cpu.l
     | .INC t | .DEC t | .SWAP t =>
        ∀ r, r ≠ t → register_from_target cpu' r = register_from_target cpu r
     | .OTHER _ => False) := by
  cases i with
  | ADD t =>
    simp only [execute, Option.some.injEq] at hx
    subst hx
    exact ⟨rfl, rfl, rfl, rfl, rfl, rfl⟩
  | ADC t =>
    simp only [execute, Option.some.injEq] at hx
    subst hx
    exact ⟨rfl, rfl, rfl, rfl, rfl, rfl⟩
  | SUB t =>
    simp only [execute, Option.some.injEq] at hx
    subst hx
    exact ⟨rfl, rfl, rfl, rfl, rfl, rfl⟩
  | SBC t =>
    rcases hsc : subtract_with_carry cpu t with _ | r
    · simp only [execute, hsc] at hx
      exact Option.noConfusion hx
    · simp only [execute, hsc, Option.some.injEq] at hx
      subst hx
      exact ⟨rfl, rfl, rfl, rfl, rfl, rfl⟩
  | XOR t =>
    simp only [execute, Option.some.injEq] at hx
    subst hx
    exact ⟨rfl, rfl, rfl, rfl, rfl, rfl⟩
  | AND t =>
    simp only [execute, Option.some.injEq] at hx
    subst hx
    exact ⟨rfl, rfl, rfl, rfl, rfl, rfl⟩
  | OR t =>
    simp only [execute, Option.some.injEq] at hx
    subst hx
    exact ⟨rfl, rfl, rfl, rfl, rfl, rfl⟩
  | CP t =>
    simp only [execute, Option.some.injEq] at hx
    subst hx
    exact ⟨rfl, rfl, rfl, rfl, rfl, rfl⟩
  | INC t =>
    rcases hs : increment cpu t with _ | r
    · simp only [execute, hs] at hx
      exact Option.noConfusion hx
    · simp only [execute, hs, Option.some.injEq] at hx
      subst hx
      intro r0 hr0
      rw [register_from_target_f_irrel, register_from_target_write_ne cpu t r0 r.1 hr0]
  | DEC t =>
    rcases hs : decrement cpu t with _ | r
    · simp only [execute, hs] at hx
      exact Option.noConfusion hx
    · simp only [execute, hs, Option.some.injEq] at hx
      subst hx
      intro r0 hr0
      rw [register_from_target_f_irrel, register_from_target_write_ne cpu t r0 r.1 hr0]
  | SWAP t =>
    simp only [execute, Option.some.injEq] at hx
    subst hx
    intro r0 hr0
    rw [register_from_target_f_irrel,
      register_from_target_write_ne cpu t r0 (swap cpu t).1 hr0]
  | OTHER t =>
    simp only [execute] at hx
    exact Option.noConfusion hx

/-- cpu1 is the register file that executing ADD with target B produces from
cpu0. -/
def cpu1 : Registers :=
  { a := 11, b := 1, c := 2, d := 3, e := 4,
    f := { zero := false, subtract := false, half_carry := false, carry := false },
    h := 5, l := 6 }

/-- C10 witness: the frame condition for ADD with target B on the concrete
state cpu0. -/
theorem execute_frame_effects_witness :
    cpu1.b = cpu0.b ∧ cpu1.c = cpu0.c ∧ cpu1.d = cpu0.d ∧ cpu1.e = cpu0.e ∧
    cpu1.h = cpu0.h ∧ cpu1.l = cpu0.l :=
  execute_frame_effects cpu0 cpu1 (.ADD .B) (by decide)

/-- C9: the four-boolean and byte representations of the flag register are
isomorphic: converting the flags to a byte and back recovers the same four
booleans, the unused bits of the byte are zero, and for every 16-bit value
representable as an AF pair, set_af followed by get_af returns it. -/
theorem flag_byte_isomorphism (fl : FlagRegister) (cpu : Registers) (x : Nat)
    (hx : AFRepresentable x) :
    flag_from_byte (flag_to_byte fl) = fl ∧
    flag_to_byte fl &&& 0xF0 = 0 ∧
    get_af (set_af cpu x) = x := by
  refine ⟨flag_round_aux fl, ?_, ?_⟩
  · rcases fl with ⟨z, s, hc, c⟩
    cases z <;> cases s <;> cases hc <;> cases c <;> decide
  · obtain ⟨hi, fl0, hhi, rfl⟩ := hx
    have hb : flag_to_byte fl0 < 256 :=
      lt_trans (flag_to_byte_lt fl0) (by norm_num)
    simp [set_af, get_af, unfold_fold_aux hi _ hhi hb, flag_round_aux]

/-- C9 witness: the isomorphism at the flag combination zero = true,
half_carry = true and the AF value 1290 = fold 5 0x0A. -/
theorem flag_byte_isomorphism_witness :
    flag_from_byte (flag_to_byte ⟨true, false, true, false⟩) = ⟨true, false, true, false⟩ ∧
    flag_to_byte ⟨true, false, true, false⟩ &&& 0xF0 = 0 ∧
    get_af (set_af cpu0 1290) = 1290 :=
  flag_byte_isomorphism ⟨true, false, true, false⟩ cpu0 1290
    ⟨5, ⟨true, false, true, false⟩, by decide, by decide⟩

end GBC
